import Mathlib

set_option linter.unusedVariables false

/-!
Shallow embedding of the step detection and counting engine of the sihatAI
repository (src/services/step-counter.ts, src/services/ios-step-helper.ts,
src/services/ios-health-service.ts).  Floating point numbers are modelled as
rationals, timestamps as integer milliseconds, calendar dates as integer day
indices, and the AsyncStorage persistence layer as a total map from day index
to an optional stored record.
-/

/-- Persisted daily step record, mirroring the StepData interface of
src/services/step-counter.ts (fields steps, date, lastUpdate). -/
structure StepData where
  steps : Nat
  date : Int
  lastUpdate : Int
  deriving Repr, DecidableEq

/-- Mutable fields of StepCounterService used by the generic hysteresis step
detector, src/services/step-counter.ts lines 17-21. -/
structure SCState where
  stepCount : Nat
  lastMagnitude : Rat
  stepThreshold : Rat
  lastStepTime : Int
  deriving Repr, DecidableEq

/-- Minimum time between steps in milliseconds, step-counter.ts line 21. -/
def minStepInterval : Int := 200

/-- The firing condition of StepCounterService.detectStep, step-counter.ts
lines 144-148: magnitude crosses the threshold from at-or-below to above and
more than minStepInterval ms elapsed since the last accepted step. -/
def stepFires (s : SCState) (magnitude : Rat) (currentTime : Int) : Prop :=
  magnitude > s.stepThreshold ∧ s.lastMagnitude ≤ s.stepThreshold ∧
    currentTime - s.lastStepTime > minStepInterval

instance (s : SCState) (m : Rat) (t : Int) : Decidable (stepFires s m t) := by
  unfold stepFires
  infer_instance

/-- StepCounterService.detectStep, step-counter.ts lines 140-164: on the
firing condition the step count increments by one and lastStepTime is set to
the current time; lastMagnitude is always overwritten with the incoming
magnitude. -/
def detectStep (s : SCState) (magnitude : Rat) (currentTime : Int) : SCState :=
  if stepFires s magnitude currentTime then
    { s with
        stepCount := s.stepCount + 1
        lastStepTime := currentTime
        lastMagnitude := magnitude }
  else
    { s with lastMagnitude := magnitude }

/-- Feeding a timed sequence of activity metrics through detectStep. -/
def runDetect (s : SCState) (samples : List (Rat × Int)) : SCState :=
  samples.foldl (fun st p => detectStep st p.1 p.2) s

theorem detectStep_stepThreshold (s : SCState) (m : Rat) (t : Int) :
    (detectStep s m t).stepThreshold = s.stepThreshold := by
  unfold detectStep
  split <;> rfl

theorem detectStep_of_le (s : SCState) (m : Rat) (t : Int)
    (h : m ≤ s.stepThreshold) :
    detectStep s m t = { s with lastMagnitude := m } := by
  unfold detectStep
  rw [if_neg]
  intro hf
  exact absurd h (not_le.mpr hf.1)

theorem runDetect_all_le (s : SCState) (samples : List (Rat × Int))
    (h : ∀ p ∈ samples, p.1 ≤ s.stepThreshold) :
    (runDetect s samples).stepCount = s.stepCount := by
  induction samples generalizing s with
  | nil => rfl
  | cons p ps ih =>
      have hp : p.1 ≤ s.stepThreshold := h p (List.mem_cons_self p ps)
      have hstep : detectStep s p.1 p.2 = { s with lastMagnitude := p.1 } :=
        detectStep_of_le s p.1 p.2 hp
      show (runDetect (detectStep s p.1 p.2) ps).stepCount = s.stepCount
      rw [hstep]
      exact ih { s with lastMagnitude := p.1 }
        (fun q hq => h q (List.mem_cons_of_mem p hq))

/-- C1: the hysteresis detector fires exactly when the metric is strictly
above the threshold, the previous metric was at or below it, and more than
200 ms (minStepInterval) elapsed since the last accepted event; each event
increments the count by exactly one; a sequence of metrics all at or below
the threshold produces no events; and two rising edges within minStepInterval
(the second one preceded by a dip back below the threshold) produce exactly
one event. -/
theorem detectStep_hysteresis_spec :
    (∀ (s : SCState) (m : Rat) (t : Int),
      (stepFires s m t ↔
        (m > s.stepThreshold ∧ s.lastMagnitude ≤ s.stepThreshold ∧
          t - s.lastStepTime > 200)) ∧
      (stepFires s m t → (detectStep s m t).stepCount = s.stepCount + 1) ∧
      (¬ stepFires s m t → (detectStep s m t).stepCount = s.stepCount)) ∧
    (∀ (s : SCState) (samples : List (Rat × Int)),
      (∀ p ∈ samples, p.1 ≤ s.stepThreshold) →
      (runDetect s samples).stepCount = s.stepCount) ∧
    (∀ (s : SCState) (m1 d m2 : Rat) (t1 td t2 : Int),
      m1 > s.stepThreshold → s.lastMagnitude ≤ s.stepThreshold →
      t1 - s.lastStepTime > 200 → d ≤ s.stepThreshold →
      m2 > s.stepThreshold → t2 - t1 ≤ 200 →
      (runDetect s [(m1, t1), (d, td), (m2, t2)]).stepCount =
        s.stepCount + 1) := by
  refine ⟨fun s m t => ⟨Iff.rfl, fun hf => ?_, fun hf => ?_⟩, runDetect_all_le,
    fun s m1 d m2 t1 td t2 h1 h2 h3 h4 h5 h6 => ?_⟩
  · unfold detectStep
    rw [if_pos hf]
  · unfold detectStep
    rw [if_neg hf]
  · have hf1 : stepFires s m1 t1 := ⟨h1, h2, h3⟩
    have e1 : detectStep s m1 t1 =
        { s with
            stepCount := s.stepCount + 1
            lastStepTime := t1
            lastMagnitude := m1 } := by
      unfold detectStep
      rw [if_pos hf1]
    have e2 : detectStep (detectStep s m1 t1) d td =
        { s with
            stepCount := s.stepCount + 1
            lastStepTime := t1
            lastMagnitude := d } := by
      rw [e1]
      exact detectStep_of_le _ d td h4
    have hnf : ¬ stepFires { s with
        stepCount := s.stepCount + 1
        lastStepTime := t1
        lastMagnitude := d } m2 t2 := by
      intro hf
      have := hf.2.2
      simp only [minStepInterval] at this
      omega
    show (detectStep (detectStep (detectStep s m1 t1) d td) m2 t2).stepCount =
      s.stepCount + 1
    rw [e2]
    unfold detectStep
    rw [if_neg hnf]

/-- Concrete instantiation of the hysteresis spec: threshold 1.2, a rising
edge at 300 ms, a dip, and a second rising edge 150 ms later yield exactly
one counted step. -/
theorem detectStep_hysteresis_spec_witness :
    (runDetect ⟨0, 0, 1.2, 0⟩ [(1.5, 300), (0.5, 400), (1.5, 450)]).stepCount
      = 0 + 1 :=
  detectStep_hysteresis_spec.2.2 ⟨0, 0, 1.2, 0⟩ 1.5 0.5 1.5 300 400 450
    (by norm_num) (by norm_num) (by norm_num) (by norm_num) (by norm_num)
    (by norm_num)

/-- Mutable fields of IOSStepCounterHelper, src/services/ios-step-helper.ts
lines 12-16.  The stepBuffer list holds the most recent readings with the
newest value at the end, as in the TypeScript array after push/shift. -/
structure IOSState where
  stepBuffer : List Rat
  lastStepTime : Int
  stepThreshold : Rat
  stepCount : Nat
  deriving Repr, DecidableEq

/-- Fixed rolling-buffer capacity, ios-step-helper.ts line 13. -/
def bufferSize : Nat := 20

/-- Initial helper state: empty buffer, lastStepTime 0, default threshold 0.3
(ios-step-helper.ts lines 12-16), count 0. -/
def iosHelperInit : IOSState := ⟨[], 0, 0.3, 0⟩

/-- The buffer after the push/shift pair of ios-step-helper.ts lines 76-79:
append the new value, then drop the oldest when capacity is exceeded. -/
def iosBufAfter (buf : List Rat) (v : Rat) : List Rat :=
  let b := buf ++ [v]
  if b.length > bufferSize then b.tail else b

/-- IOSStepCounterHelper.detectStepFromAcceleration, ios-step-helper.ts lines
68-104: pushes |z| into the rolling buffer; while the buffer holds fewer than
bufferSize readings returns false; once full, fires when the newest value is
strictly above the previous one, strictly above the buffer mean plus the
threshold, and more than 300 ms elapsed since the last accepted step. -/
def detectStepFromAcceleration (s : IOSState) (x y z : Rat) (currentTime : Int) :
    Bool × IOSState :=
  let verticalAcceleration := |z|
  let buf := iosBufAfter s.stepBuffer verticalAcceleration
  if buf.length < bufferSize then
    (false, { s with stepBuffer := buf })
  else
    let average := buf.sum / (buf.length : Rat)
    let current := buf.getD (buf.length - 1) 0
    let previous := buf.getD (buf.length - 2) 0
    if current > previous ∧ current > average + s.stepThreshold ∧
        currentTime - s.lastStepTime > 300 then
      (true, { s with
          stepBuffer := buf
          lastStepTime := currentTime
          stepCount := s.stepCount + 1 })
    else
      (false, { s with stepBuffer := buf })

theorem iosBufAfter_length_of_lt (buf : List Rat) (v : Rat)
    (h : buf.length + 1 ≤ bufferSize) :
    (iosBufAfter buf v).length = buf.length + 1 := by
  unfold iosBufAfter
  rw [if_neg]
  · simp
  · simp only [List.length_append, List.length_singleton]
    omega

theorem detectStepFromAcceleration_full (s : IOSState) (x y z : Rat) (t : Int)
    (h : (iosBufAfter s.stepBuffer |z|).length = 20) :
    detectStepFromAcceleration s x y z t =
      if (iosBufAfter s.stepBuffer |z|).getD 19 0 >
            (iosBufAfter s.stepBuffer |z|).getD 18 0 ∧
          (iosBufAfter s.stepBuffer |z|).getD 19 0 >
            (iosBufAfter s.stepBuffer |z|).sum / 20 + s.stepThreshold ∧
          t - s.lastStepTime > 300
      then (true, { s with
          stepBuffer := iosBufAfter s.stepBuffer |z|
          lastStepTime := t
          stepCount := s.stepCount + 1 })
      else (false, { s with stepBuffer := iosBufAfter s.stepBuffer |z| }) := by
  simp only [detectStepFromAcceleration, h, bufferSize]
  norm_num

/-- C2: the windowed peak detector returns false while the rolling buffer is
below its capacity of 20 and leaves the count unchanged; once the buffer
(after the current push) is full, it fires exactly when the newest buffered
value is strictly greater than the previous one, strictly greater than the
buffer mean plus the sensitivity threshold, and more than 300 ms elapsed
since the last accepted event, incrementing the count by one on each event
and leaving it unchanged otherwise. -/
theorem detectStepFromAcceleration_spec :
    (∀ (s : IOSState) (x y z : Rat) (t : Int),
      s.stepBuffer.length + 1 < bufferSize →
      (detectStepFromAcceleration s x y z t).1 = false ∧
      (detectStepFromAcceleration s x y z t).2.stepCount = s.stepCount) ∧
    (∀ (s : IOSState) (x y z : Rat) (t : Int),
      (iosBufAfter s.stepBuffer |z|).length = bufferSize →
      (((detectStepFromAcceleration s x y z t).1 = true ↔
        ((iosBufAfter s.stepBuffer |z|).getD 19 0 >
            (iosBufAfter s.stepBuffer |z|).getD 18 0 ∧
          (iosBufAfter s.stepBuffer |z|).getD 19 0 >
            (iosBufAfter s.stepBuffer |z|).sum / 20 + s.stepThreshold ∧
          t - s.lastStepTime > 300)) ∧
       ((detectStepFromAcceleration s x y z t).1 = true →
         (detectStepFromAcceleration s x y z t).2.stepCount = s.stepCount + 1) ∧
       ((detectStepFromAcceleration s x y z t).1 = false →
         (detectStepFromAcceleration s x y z t).2.stepCount = s.stepCount))) := by
  constructor
  · intro s x y z t h
    have hlen : (iosBufAfter s.stepBuffer |z|).length = s.stepBuffer.length + 1 :=
      iosBufAfter_length_of_lt s.stepBuffer |z| (Nat.le_of_lt h)
    unfold detectStepFromAcceleration
    rw [if_pos (by omega)]
    exact ⟨rfl, rfl⟩
  · intro s x y z t h
    have h20 : (iosBufAfter s.stepBuffer |z|).length = 20 := by
      simpa [bufferSize] using h
    rw [detectStepFromAcceleration_full s x y z t h20]
    by_cases hc : ((iosBufAfter s.stepBuffer |z|).getD 19 0 >
          (iosBufAfter s.stepBuffer |z|).getD 18 0 ∧
        (iosBufAfter s.stepBuffer |z|).getD 19 0 >
          (iosBufAfter s.stepBuffer |z|).sum / 20 + s.stepThreshold ∧
        t - s.lastStepTime > 300)
    · rw [if_pos hc]
      exact ⟨⟨fun _ => hc, fun _ => rfl⟩, fun _ => rfl,
        fun hfalse => Bool.noConfusion hfalse⟩
    · rw [if_neg hc]
      exact ⟨⟨fun htrue => Bool.noConfusion htrue, fun hcc => absurd hcc hc⟩,
        fun htrue => Bool.noConfusion htrue, fun _ => rfl⟩

/-- Concrete instantiation of the windowed-detector spec: with 10 buffered
readings the call reports no step; with 19 buffered zero readings a new
reading of 2 fills the buffer to capacity and fires (2 is above the previous
value 0, above the mean 0.1 plus the threshold 0.3, and 400 ms elapsed). -/
theorem detectStepFromAcceleration_spec_witness :
    (detectStepFromAcceleration ⟨List.replicate 10 0, 0, 0.3, 0⟩ 0 0 2 400).1
        = false ∧
    (detectStepFromAcceleration ⟨List.replicate 19 0, 0, 0.3, 0⟩ 0 0 2 400).1
        = true := by
  have h := detectStepFromAcceleration_spec
  refine ⟨(h.1 ⟨List.replicate 10 0, 0, 0.3, 0⟩ 0 0 2 400
      (by norm_num [bufferSize])).1, ?_⟩
  exact ((h.2 ⟨List.replicate 19 0, 0, 0.3, 0⟩ 0 0 2 400
      (by norm_num [iosBufAfter, bufferSize])).1).mpr
    (by norm_num [iosBufAfter, bufferSize, List.getD_append,
      List.getElem_append_left, List.getElem_replicate])

/-- Combined service state: the StepCounterService counter plus the optional
iOS helper attached when running on iOS (step-counter.ts lines 22-36). -/
structure FullState where
  stepCount : Nat
  iosHelper : Option IOSState
  deriving Repr, DecidableEq

/-- StepCounterService.loadTodaysSteps, step-counter.ts lines 39-54: a
persisted record for today yields its steps field; an absent record (or a
read error, per the catch branch) yields 0. -/
def loadTodaysSteps (storage : Int → Option StepData) (today : Int) : Nat :=
  match storage today with
  | some d => d.steps
  | none => 0

/-- Service initialization (constructor, step-counter.ts lines 28-36): the
counter is loaded from storage for today; on iOS a fresh helper instance with
count 0 is attached in addition. -/
def initService (isIOS : Bool) (storage : Int → Option StepData)
    (today : Int) : FullState :=
  { stepCount := loadTodaysSteps storage today
    iosHelper := if isIOS then some iosHelperInit else none }

/-- StepCounterService.getCurrentStepCount, step-counter.ts lines 167-172: on
iOS it returns the helper count, otherwise the service counter. -/
def getCurrentStepCount (s : FullState) : Nat :=
  match s.iosHelper with
  | some h => h.stepCount
  | none => s.stepCount

/-- Storage holding a single record for day 0 with the given step count. -/
def storageWith (p : Nat) : Int → Option StepData := fun d =>
  if d = 0 then some ⟨p, 0, 0⟩ else none

/-- C3 counterexample: with a persisted record of 5 steps for today and an
in-memory detector count of 0, initialization on the iOS path yields
getCurrentStepCount () = 0, not the persisted 5 = max (persisted, inMemory):
the iOS path reads the helper counter and ignores the loaded value, and no
code advances the detector counter by the difference. -/
theorem startup_reconciliation_ios_counterexample :
    getCurrentStepCount (initService true (storageWith 5) 0) = 0 ∧
    getCurrentStepCount (initService true (storageWith 5) 0) ≠ max 5 0 := by
  exact ⟨rfl, by decide⟩

/-- C3 amended: after initialization the generic (non-iOS) path returns the
loaded value, which equals max (persisted, inMemory) since the in-memory
count is 0; in particular a persisted record with P steps yields P.  The iOS
path instead returns the fresh helper count 0 regardless of storage. -/
theorem startup_reconciliation_amended :
    (∀ (storage : Int → Option StepData) (today : Int),
      getCurrentStepCount (initService false storage today) =
        loadTodaysSteps storage today ∧
      getCurrentStepCount (initService false storage today) =
        max (loadTodaysSteps storage today) 0) ∧
    (∀ (storage : Int → Option StepData) (today : Int) (r : StepData),
      storage today = some r →
      getCurrentStepCount (initService false storage today) = r.steps) ∧
    (∀ (storage : Int → Option StepData) (today : Int),
      getCurrentStepCount (initService true storage today) = 0) := by
  refine ⟨fun storage today => ⟨rfl, ?_⟩, fun storage today r hr => ?_, 
    fun storage today => rfl⟩
  · rw [Nat.max_zero]
    rfl
  · show loadTodaysSteps storage today = r.steps
    unfold loadTodaysSteps
    rw [hr]

/-- Concrete instantiation of the amended startup claim: persisted count 7,
generic path returns 7, iOS path returns 0. -/
theorem startup_reconciliation_amended_witness :
    getCurrentStepCount (initService false (storageWith 7) 0) = 7 ∧
    getCurrentStepCount (initService true (storageWith 7) 0) = 0 := by
  have h := startup_reconciliation_amended
  exact ⟨h.2.1 (storageWith 7) 0 ⟨7, 0, 0⟩ rfl, h.2.2 (storageWith 7) 0⟩

/-- StepCounterService.addSteps, step-counter.ts lines 185-198: on iOS the
helper counter is advanced and mirrored into the service counter; otherwise
the service counter is advanced directly. -/
def addSteps (s : FullState) (steps : Nat) : FullState :=
  match s.iosHelper with
  | some h =>
      { stepCount := h.stepCount + steps
        iosHelper := some { h with stepCount := h.stepCount + steps } }
  | none => { s with stepCount := s.stepCount + steps }

/-- StepCounterService.syncWithHealthApp, step-counter.ts lines 201-259: on
non-iOS (no iOS helper and health service attached, the guard of lines
215-219) the function returns the unavailable result before touching any
state; on iOS, when the provider returns a value (line 233), the service
counter this.stepCount is overwritten with it (line 235) and the iOS helper
counter is not touched; when the provider returns nothing (null, service
unavailable, or a thrown error caught at line 253) nothing changes. -/
def syncWithHealthApp (s : FullState) (healthAppSteps : Option Nat) :
    FullState :=
  match s.iosHelper with
  | none => s
  | some h =>
      match healthAppSteps with
      | some hk => { s with stepCount := hk }
      | none => s

/-- StepCounterService.resetDailySteps, step-counter.ts lines 313-324: resets
the helper count and buffer when a helper is present and zeroes the service
counter. -/
def resetDailySteps (s : FullState) : FullState :=
  { stepCount := 0
    iosHelper := match s.iosHelper with
      | some h => some { h with stepCount := 0, stepBuffer := [] }
      | none => none }

/-- C9: within a single day getCurrentStepCount is monotonically
non-decreasing under every exposed operation - generic and iOS step events,
manual additions, and health-app synchronization - with explicit
reset-to-zero as the sole exception.  Synchronization never lowers the
observable count: on non-iOS it returns before mutating, and on iOS the
overwritten service counter is not the one getCurrentStepCount reads there
(it reads the untouched helper counter), so sync leaves getCurrentStepCount
exactly unchanged. -/
theorem monotonicity_spec :
    (∀ (s : SCState) (m : Rat) (t : Int),
      s.stepCount ≤ (detectStep s m t).stepCount) ∧
    (∀ (s : IOSState) (x y z : Rat) (t : Int),
      s.stepCount ≤ (detectStepFromAcceleration s x y z t).2.stepCount) ∧
    (∀ (s : FullState) (n : Nat),
      getCurrentStepCount s ≤ getCurrentStepCount (addSteps s n)) ∧
    (∀ (s : FullState) (healthAppSteps : Option Nat),
      getCurrentStepCount (syncWithHealthApp s healthAppSteps) =
        getCurrentStepCount s) ∧
    (∀ (s : FullState), getCurrentStepCount (resetDailySteps s) = 0) := by
  refine ⟨fun s m t => ?_, fun s x y z t => ?_, fun s n => ?_,
    fun s healthAppSteps => ?_, fun s => ?_⟩
  · unfold detectStep
    split
    · exact Nat.le_succ _
    · exact le_refl _
  · simp only [detectStepFromAcceleration]
    split
    · exact le_refl _
    · split
      · exact Nat.le_succ _
      · exact le_refl _
  · rcases s with ⟨c, h⟩
    cases h with
    | none => exact Nat.le_add_right _ _
    | some hh => exact Nat.le_add_right _ _
  · rcases s with ⟨c, h⟩
    cases h with
    | none => cases healthAppSteps <;> rfl
    | some hh => cases healthAppSteps <;> rfl
  · rcases s with ⟨c, h⟩
    cases h <;> rfl

/-- Result record of StepCounterService.compareWithHealthApp, step-counter.ts
lines 262-267.  The rationale field models the recommendation string of the
source. -/
structure CompareResult where
  accelerometerSteps : Nat
  healthAppSteps : Option Nat
  accuracy : String
  rationale : String
  deriving Repr, DecidableEq

/-- The comparison computed by StepCounterService.compareWithHealthApp,
step-counter.ts lines 278-300, as a function of the service counter and the
health-app reading.  When both counts are zero the JavaScript percentage is
NaN (0 divided by 0) and the NaN comparison with 10 is false, hence the
0 < max conjunct guarding the similar branch. -/
def compareResultOf (count : Nat) (healthAppSteps : Option Nat) :
    CompareResult :=
  match healthAppSteps with
  | none => ⟨count, none, "unknown", "Health app data not available"⟩
  | some e =>
      if 0 < max (count : Rat) (e : Rat) ∧
          |(count : Rat) - (e : Rat)| / max (count : Rat) (e : Rat) * 100 ≤ 10
      then ⟨count, some e, "similar",
        "Motion sensor and Health app data are similar. Good accuracy!"⟩
      else ⟨count, some e, "different",
        "Motion sensors: " ++ toString count ++ ", Health app: " ++
          toString e ++ ". Consider calibration."⟩

/-- StepCounterService.compareWithHealthApp, step-counter.ts lines 262-310,
as a state transformer: the body reads the service counter and the provider
value, assigns no field and performs no storage write, so the state comes
back unchanged next to the advisory result. -/
def compareWithHealthApp (s : FullState) (healthAppSteps : Option Nat) :
    CompareResult × FullState :=
  (compareResultOf s.stepCount healthAppSteps, s)

/-- Record returned by IOSHealthService.syncWithHealthKit, modelling the
HealthData fields that the choice affects (steps and source),
ios-health-service.ts lines 18-23 and 166-190. -/
structure HealthSyncData where
  steps : Nat
  source : String
  deriving Repr, DecidableEq

/-- IOSHealthService.syncWithHealthKit, ios-health-service.ts lines 166-190:
without HealthKit data the sync yields none; otherwise the HealthKit reading
is chosen exactly when it exceeds 1.2 times the app count, else the app count
is kept. -/
def syncWithHealthKit (appSteps : Nat) (healthKitSteps : Option Nat) :
    Option HealthSyncData :=
  match healthKitSteps with
  | none => none
  | some hk =>
      if (hk : Rat) > (appSteps : Rat) * 1.2 then
        some ⟨hk, "iOS Health App (Mock)"⟩
      else
        some ⟨appSteps, "SihatAI App"⟩

/-- C10: compareWithHealthApp is advisory and mutation-free: for every state
and every provider response the returned state is exactly the input state,
so getCurrentStepCount returns the same value before and after the call. -/
theorem compareWithHealthApp_pure :
    ∀ (s : FullState) (healthAppSteps : Option Nat),
      (compareWithHealthApp s healthAppSteps).2 = s ∧
      getCurrentStepCount (compareWithHealthApp s healthAppSteps).2 =
        getCurrentStepCount s :=
  fun s h => ⟨rfl, rfl⟩

/-- C8: the reconciliation advisor.  (i) An unavailable external reading
yields the unavailable outcome in both routines; with a reading present and
at least one count nonzero, percentDiff = |l - e| / max l e * 100 decides the
advisory: (ii) percentDiff ≤ 10 yields the similar / good-accuracy result,
(iii) percentDiff > 10 yields the different result whose rationale carries
both raw numbers and a calibration suggestion; and the sync routine chooses
the external source exactly when e > 1.2 * l, keeping the local count
otherwise. -/
theorem reconcile_spec :
    (∀ l : Nat, compareResultOf l none =
      ⟨l, none, "unknown", "Health app data not available"⟩) ∧
    (∀ l : Nat, syncWithHealthKit l none = none) ∧
    (∀ l e : Nat, 0 < max (l : Rat) (e : Rat) →
      (|(l : Rat) - (e : Rat)| / max (l : Rat) (e : Rat) * 100 ≤ 10 →
        compareResultOf l (some e) = ⟨l, some e, "similar",
          "Motion sensor and Health app data are similar. Good accuracy!"⟩) ∧
      (|(l : Rat) - (e : Rat)| / max (l : Rat) (e : Rat) * 100 > 10 →
        compareResultOf l (some e) = ⟨l, some e, "different",
          "Motion sensors: " ++ toString l ++ ", Health app: " ++
            toString e ++ ". Consider calibration."⟩)) ∧
    (∀ l e : Nat,
      (syncWithHealthKit l (some e) = some ⟨e, "iOS Health App (Mock)"⟩ ↔
        (e : Rat) > (l : Rat) * 1.2) ∧
      ((e : Rat) ≤ (l : Rat) * 1.2 →
        syncWithHealthKit l (some e) = some ⟨l, "SihatAI App"⟩)) := by
  refine ⟨fun l => rfl, fun l => rfl, fun l e hmax => ⟨fun hle => ?_,
    fun hgt => ?_⟩, fun l e => ⟨⟨fun heq => ?_, fun hgt => ?_⟩, fun hle => ?_⟩⟩
  · simp only [compareResultOf]
    rw [if_pos ⟨hmax, hle⟩]
  · simp only [compareResultOf]
    rw [if_neg]
    intro hc
    exact absurd hc.2 (not_le.mpr hgt)
  · by_contra hng
    have hne : syncWithHealthKit l (some e) = some ⟨l, "SihatAI App"⟩ := by
      simp only [syncWithHealthKit]
      rw [if_neg hng]
    rw [hne] at heq
    have := Option.some.inj heq
    have hsrc : "SihatAI App" = "iOS Health App (Mock)" :=
      congrArg HealthSyncData.source this
    simp at hsrc
  · simp only [syncWithHealthKit]
    rw [if_pos hgt]
  · simp only [syncWithHealthKit]
    rw [if_neg (not_lt.mpr hle)]

/-- Concrete instantiation of the reconciliation advisor spec: counts 100 and
105 differ by under 10 percent and read as similar; counts 100 and 140 differ
by over 10 percent, the rationale carries both numbers and a calibration
suggestion, and the sync routine picks the external 140 since it exceeds
120 = 100 * 1.2. -/
theorem reconcile_spec_witness :
    compareResultOf 100 (some 105) = ⟨100, some 105, "similar",
      "Motion sensor and Health app data are similar. Good accuracy!"⟩ ∧
    compareResultOf 100 (some 140) = ⟨100, some 140, "different",
      "Motion sensors: " ++ toString (100 : Nat) ++ ", Health app: " ++
        toString (140 : Nat) ++ ". Consider calibration."⟩ ∧
    syncWithHealthKit 100 (some 140) = some ⟨140, "iOS Health App (Mock)"⟩ := by
  have h := reconcile_spec
  refine ⟨(h.2.2.1 100 105 (by norm_num)).1 ?_,
    (h.2.2.1 100 140 (by norm_num)).2 ?_, (h.2.2.2 100 140).1.mpr (by norm_num)⟩
  · rw [show max ((100 : Nat) : Rat) ((105 : Nat) : Rat) = 105 by norm_num]
    rw [show |((100 : Nat) : Rat) - ((105 : Nat) : Rat)| = 5 by
      rw [abs_sub_comm]; norm_num]
    norm_num
  · rw [show max ((100 : Nat) : Rat) ((140 : Nat) : Rat) = 140 by norm_num]
    rw [show |((100 : Nat) : Rat) - ((140 : Nat) : Rat)| = 40 by
      rw [abs_sub_comm]; norm_num]
    norm_num

/-- Arithmetic mean of a sample list, as computed at step-counter.ts line 475
and ios-step-helper.ts line 135 (sum divided by length). -/
def listMean (samples : List Rat) : Rat :=
  samples.sum / (samples.length : Rat)

/-- Population variance of a sample list, as computed at step-counter.ts line
476 and ios-step-helper.ts lines 136-137 (mean of squared deviations). -/
def listVariance (samples : List Rat) : Rat :=
  ((samples.map (fun v => (v - listMean samples) ^ 2)).sum) /
    (samples.length : Rat)

/-- Threshold update of StepCounterService.calibrateStepDetection,
step-counter.ts lines 474-485: with at least one captured sample the
threshold becomes mean + 1.5 * stdDev clamped to [0.8, 2.0]; with no samples
it is left unchanged.  Math.sqrt is embedded abstractly: the stdDev argument
stands for the square root of the population variance and the theorems
constrain it by 0 ≤ stdDev and stdDev ^ 2 = listVariance samples. -/
def calibrateStepDetection (threshold : Rat) (samples : List Rat)
    (stdDev : Rat) : Rat :=
  if samples.length > 0 then
    max 0.8 (min 2.0 (listMean samples + 1.5 * stdDev))
  else threshold

/-- IOSStepCounterHelper.calibrateForUser, ios-step-helper.ts lines 131-144:
with fewer than 10 samples the state is unchanged; otherwise the threshold
becomes stdDev * 1.5 clamped to [0.2, 0.8] (the mean is computed but does not
enter the threshold).  The stdDev argument abstracts Math.sqrt as above. -/
def calibrateForUser (s : IOSState) (samples : List Rat) (stdDev : Rat) :
    IOSState :=
  if samples.length < 10 then s
  else { s with stepThreshold := max 0.2 (min 0.8 (stdDev * 1.5)) }

/-- Ten calibration samples whose population variance 1/25 has the exact
square root 1/5: five readings of 0.1 and five of 0.5, mean 0.3. -/
def calibSamples : List Rat :=
  [0.1, 0.1, 0.1, 0.1, 0.1, 0.5, 0.5, 0.5, 0.5, 0.5]

/-- C4 counterexample: on the iOS path the calibration formula is not
mean + 1.5 * stddev clamped.  For ten samples with mean 0.3 and standard
deviation exactly 0.2, calibrateForUser stores clamp (1.5 * 0.2) = 0.3 while
the claimed formula gives clamp (0.3 + 1.5 * 0.2) = 0.6. -/
theorem calibration_formula_counterexample :
    (0 : Rat) ≤ 0.2 ∧ (0.2 : Rat) ^ 2 = listVariance calibSamples ∧
    (10 : Nat) ≤ calibSamples.length ∧
    (calibrateForUser iosHelperInit calibSamples 0.2).stepThreshold = 0.3 ∧
    (calibrateForUser iosHelperInit calibSamples 0.2).stepThreshold ≠
      max 0.2 (min 0.8 (listMean calibSamples + 1.5 * 0.2)) := by
  refine ⟨by norm_num, ?_, by norm_num [calibSamples], ?_, ?_⟩
  · norm_num [listVariance, listMean, calibSamples]
  · norm_num [calibrateForUser, calibSamples, iosHelperInit]
  · norm_num [calibrateForUser, calibSamples, iosHelperInit, listMean]

/-- C4 amended: the generic calibration sets the threshold to mean + 1.5 *
stddev clamped to [0.8, 2.0]; the iOS calibrateForUser instead sets it to
1.5 * stddev clamped to [0.2, 0.8], omitting the mean; in both cases the
resulting threshold lies within the respective clamp range. -/
theorem calibration_formula_amended :
    (∀ (threshold stdDev : Rat) (samples : List Rat),
      0 ≤ stdDev → stdDev ^ 2 = listVariance samples →
      samples.length > 0 →
      calibrateStepDetection threshold samples stdDev =
        max 0.8 (min 2.0 (listMean samples + 1.5 * stdDev)) ∧
      0.8 ≤ calibrateStepDetection threshold samples stdDev ∧
      calibrateStepDetection threshold samples stdDev ≤ 2.0) ∧
    (∀ (s : IOSState) (stdDev : Rat) (samples : List Rat),
      0 ≤ stdDev → stdDev ^ 2 = listVariance samples →
      10 ≤ samples.length →
      (calibrateForUser s samples stdDev).stepThreshold =
        max 0.2 (min 0.8 (stdDev * 1.5)) ∧
      0.2 ≤ (calibrateForUser s samples stdDev).stepThreshold ∧
      (calibrateForUser s samples stdDev).stepThreshold ≤ 0.8) := by
  constructor
  · intro threshold stdDev samples hpos hvar hlen
    have he : calibrateStepDetection threshold samples stdDev =
        max 0.8 (min 2.0 (listMean samples + 1.5 * stdDev)) := by
      unfold calibrateStepDetection
      rw [if_pos hlen]
    refine ⟨he, ?_, ?_⟩
    · rw [he]
      exact le_max_left _ _
    · rw [he]
      apply max_le (by norm_num)
      exact min_le_left _ _
  · intro s stdDev samples hpos hvar hlen
    have he : (calibrateForUser s samples stdDev).stepThreshold =
        max 0.2 (min 0.8 (stdDev * 1.5)) := by
      unfold calibrateForUser
      rw [if_neg (by omega)]
    refine ⟨he, ?_, ?_⟩
    · rw [he]
      exact le_max_left _ _
    · rw [he]
      apply max_le (by norm_num)
      exact min_le_left _ _

/-- Concrete instantiation of the amended calibration claim on the sample
list with mean 0.3 and standard deviation 0.2: the generic path yields the
clamped 0.8 and the iOS path yields 0.3. -/
theorem calibration_formula_amended_witness :
    calibrateStepDetection 1.2 calibSamples 0.2 =
      max 0.8 (min 2.0 (listMean calibSamples + 1.5 * 0.2)) ∧
    (calibrateForUser iosHelperInit calibSamples 0.2).stepThreshold =
      max 0.2 (min 0.8 ((0.2 : Rat) * 1.5)) := by
  have h := calibration_formula_amended
  exact ⟨(h.1 1.2 0.2 calibSamples (by norm_num)
      (by norm_num [listVariance, listMean, calibSamples])
      (by norm_num [calibSamples])).1,
    (h.2 iosHelperInit 0.2 calibSamples (by norm_num)
      (by norm_num [listVariance, listMean, calibSamples])
      (by norm_num [calibSamples])).1⟩

/-- C5 counterexample: the generic calibration has no 10-sample minimum.  A
calibration run that captured a single sample of magnitude 5 (standard
deviation 0) changes the threshold from 1.2 to the clamped value 2.0, so a
run with fewer than 10 samples does not leave the threshold unchanged. -/
theorem calibration_minimum_counterexample :
    ([(5 : Rat)].length < 10) ∧ (0 : Rat) ≤ 0 ∧
    (0 : Rat) ^ 2 = listVariance [(5 : Rat)] ∧
    calibrateStepDetection 1.2 [(5 : Rat)] 0 = 2.0 ∧
    calibrateStepDetection 1.2 [(5 : Rat)] 0 ≠ 1.2 := by
  refine ⟨by norm_num, le_refl 0, ?_, ?_, ?_⟩
  · norm_num [listVariance, listMean]
  · norm_num [calibrateStepDetection, listMean]
  · norm_num [calibrateStepDetection, listMean]

/-- C5 amended: only the iOS calibrateForUser enforces the 10-sample
minimum, leaving the whole state unchanged below it with no error raised;
the generic calibrateStepDetection skips the threshold update only when the
captured sample list is empty. -/
theorem calibration_minimum_amended :
    (∀ (s : IOSState) (samples : List Rat) (stdDev : Rat),
      samples.length < 10 → calibrateForUser s samples stdDev = s) ∧
    (∀ (threshold stdDev : Rat),
      calibrateStepDetection threshold [] stdDev = threshold) := by
  refine ⟨fun s samples stdDev h => ?_, fun threshold stdDev => rfl⟩
  unfold calibrateForUser
  rw [if_pos h]

/-- Concrete instantiation of the amended minimum-sample claim: one sample
leaves the iOS helper untouched, zero samples leave the generic threshold
untouched. -/
theorem calibration_minimum_amended_witness :
    calibrateForUser iosHelperInit [(5 : Rat)] 0 = iosHelperInit ∧
    calibrateStepDetection 1.2 [] 0 = 1.2 := by
  have h := calibration_minimum_amended
  exact ⟨h.1 iosHelperInit [(5 : Rat)] 0 (by norm_num), h.2 1.2 0⟩

/-- StepCounterService.setStepThreshold, step-counter.ts lines 444-446:
stores the input clamped to [0.5, 3.0]. -/
def setStepThreshold (threshold : Rat) : Rat := max 0.5 (min 3.0 threshold)

/-- IOSStepCounterHelper.setThreshold, ios-step-helper.ts lines 156-158:
stores the input clamped to [0.1, 1.0]. -/
def setThreshold (threshold : Rat) : Rat := max 0.1 (min 1.0 threshold)

/-- C6 counterexample: the claimed ranges do not match the code.  Setting the
hysteresis threshold to 0.1 stores 0.5, not the claimed clamp (0.1) to
[0.1, 1.0]; setting the windowed threshold to 0.15 stores 0.15, not the
claimed clamp (0.2) to [0.2, 0.8]. -/
theorem sensitivity_clamp_counterexample :
    setStepThreshold 0.1 = 0.5 ∧
    setStepThreshold 0.1 ≠ max 0.1 (min 1.0 (0.1 : Rat)) ∧
    setThreshold 0.15 = 0.15 ∧
    setThreshold 0.15 ≠ max 0.2 (min 0.8 (0.15 : Rat)) := by
  refine ⟨?_, ?_, ?_, ?_⟩ <;>
    simp [setStepThreshold, setThreshold, max_def, min_def] <;> norm_num

/-- C6 amended: setStepThreshold stores its input clamped to [0.5, 3.0] and
setThreshold stores its input clamped to [0.1, 1.0] (the claim had the
hysteresis range [0.1, 1.0] and the windowed range [0.2, 0.8] instead: the
former belongs to the windowed setter, the latter to the iOS calibration
clamp); after any set operation each threshold lies in its range. -/
theorem sensitivity_clamp_amended :
    ∀ v : Rat,
      setStepThreshold v = max 0.5 (min 3.0 v) ∧
      0.5 ≤ setStepThreshold v ∧ setStepThreshold v ≤ 3.0 ∧
      setThreshold v = max 0.1 (min 1.0 v) ∧
      0.1 ≤ setThreshold v ∧ setThreshold v ≤ 1.0 := by
  intro v
  refine ⟨rfl, le_max_left _ _, ?_, rfl, le_max_left _ _, ?_⟩
  · exact max_le (by norm_num) (min_le_left _ _)
  · exact max_le (by norm_num) (min_le_left _ _)

/-- One history entry of StepCounterService.getStepHistory, step-counter.ts
lines 336-345: the stored record for the day when present, otherwise the
synthesized record with steps 0 and lastUpdate 0. -/
def histEntry (storage : Int → Option StepData) (day : Int) : StepData :=
  match storage day with
  | some d => d
  | none => ⟨0, day, 0⟩

/-- StepCounterService.getStepHistory, step-counter.ts lines 327-352: the
loop pushes one entry per day index i = 0 .. days-1 for day today - i and the
result is reversed into chronological order. -/
def getStepHistory (storage : Int → Option StepData) (today : Int)
    (days : Nat) : List StepData :=
  ((List.range days).map
    (fun i : Nat => histEntry storage (today - (i : Int)))).reverse

theorem getStepHistory_succ (storage : Int → Option StepData) (today : Int)
    (n : Nat) :
    getStepHistory storage today (n + 1) =
      histEntry storage (today - (n : Int)) :: getStepHistory storage today n := by
  unfold getStepHistory
  rw [List.range_succ, List.map_append, List.reverse_append]
  simp

theorem getStepHistory_length (storage : Int → Option StepData) (today : Int)
    (days : Nat) : (getStepHistory storage today days).length = days := by
  simp [getStepHistory]

theorem getStepHistory_getD (storage : Int → Option StepData) (today : Int)
    (days j : Nat) (hj : j < days) :
    (getStepHistory storage today days).getD j ⟨0, 0, 0⟩ =
      histEntry storage (today - ((days - 1 - j : Nat) : Int)) := by
  induction days generalizing j with
  | zero => exact absurd hj (Nat.not_lt_zero j)
  | succ n ih =>
      rw [getStepHistory_succ]
      cases j with
      | zero =>
          rw [List.getD_cons_zero]
          norm_num
      | succ k =>
          rw [List.getD_cons_succ]
          rw [ih k (by omega)]
          have harith : (n - 1 - k : Nat) = (n + 1 - 1 - (k + 1) : Nat) := by
            omega
          rw [harith]

/-- C7: for every days ≥ 1 and every persistence state, getStepHistory
produces exactly days entries, oldest first: position j (0-based) holds the
entry of calendar day today - (days - 1 - j), so today is the final entry; a
day present in storage contributes its stored record unchanged, a day absent
from storage contributes the synthesized record with steps = 0 and
lastUpdate = 0; the reader is a total function, so no error arises from
missing entries. -/
theorem getStepHistory_spec :
    ∀ (storage : Int → Option StepData) (today : Int) (days : Nat),
      1 ≤ days →
      (getStepHistory storage today days).length = days ∧
      (∀ j, j < days →
        (getStepHistory storage today days).getD j ⟨0, 0, 0⟩ =
          histEntry storage (today - ((days - 1 - j : Nat) : Int))) ∧
      (∀ j, j < days → ∀ r : StepData,
        storage (today - ((days - 1 - j : Nat) : Int)) = some r →
        (getStepHistory storage today days).getD j ⟨0, 0, 0⟩ = r) ∧
      (∀ j, j < days →
        storage (today - ((days - 1 - j : Nat) : Int)) = none →
        (getStepHistory storage today days).getD j ⟨0, 0, 0⟩ =
          ⟨0, today - ((days - 1 - j : Nat) : Int), 0⟩) ∧
      (getStepHistory storage today days).getD (days - 1) ⟨0, 0, 0⟩ =
        histEntry storage today := by
  intro storage today days hdays
  refine ⟨getStepHistory_length storage today days,
    fun j hj => getStepHistory_getD storage today days j hj,
    fun j hj r hr => ?_, fun j hj hr => ?_, ?_⟩
  · rw [getStepHistory_getD storage today days j hj]
    unfold histEntry
    rw [hr]
  · rw [getStepHistory_getD storage today days j hj]
    unfold histEntry
    rw [hr]
  · rw [getStepHistory_getD storage today days (days - 1) (by omega)]
    have : (days - 1 - (days - 1) : Nat) = 0 := by omega
    rw [this]
    norm_num

/-- Concrete instantiation of the history claim: with a single stored record
of 7 steps for today (day 0), a 7-day history has length 7, ends with the
stored record, and starts with a synthesized zero record for day -6. -/
theorem getStepHistory_spec_witness :
    (getStepHistory (storageWith 7) 0 7).length = 7 ∧
    (getStepHistory (storageWith 7) 0 7).getD 6 ⟨0, 0, 0⟩ = ⟨7, 0, 0⟩ ∧
    (getStepHistory (storageWith 7) 0 7).getD 0 ⟨0, 0, 0⟩ = ⟨0, -6, 0⟩ := by
  have h := getStepHistory_spec (storageWith 7) 0 7 (by norm_num)
  refine ⟨h.1, h.2.2.1 6 (by norm_num) ⟨7, 0, 0⟩ rfl, ?_⟩
  have h0 := h.2.2.2.1 0 (by norm_num) rfl
  simpa using h0
